import Mathlib

/-! Verification development for the MRC stream interpreter
(`src/python_dependencies/mrcfile/mrcinterpreter.py`, class `MrcInterpreter`).

The stream is modelled as a byte list with a position, a `closed` flag and a
trace of the mutating operations issued to it (`seek` / `write` / `truncate` /
buffer `flush`).  Reads return at most the requested number of bytes, fewer
only at end of input, exactly as the spec requires of stream providers.

The fixed 1024-byte header is modelled the way the spec's design notes
describe the source's behaviour: one raw byte buffer plus a byte-order tag
consulted by the field accessors (`np.rec.fromstring` followed by
`dtype.newbyteorder` reinterprets the same bytes without copying).  Helper
functions that live in repository files not available here
(`utils.byte_order_from_machine_stamp`, `utils.data_dtype_from_header`,
`utils.data_shape_from_header`, `dtypes.HEADER_DTYPE`, `constants.MAP_ID`)
are modelled from the spec, each marked in its doc comment. -/

/-- A byte is modelled as a natural number; a byte string as a list. -/
abbrev Bytes := List Nat

/-- Byte order tag: little-endian or big-endian. -/
inductive ByteOrder
  | little
  | big
deriving DecidableEq, Repr

/-- A mutating operation issued to the underlying I/O stream.  `flushBuf`
records the stream-level `flush()` call at the end of `MrcInterpreter.flush`. -/
inductive StreamOp
  | seek (offset : Nat)
  | write (bs : Bytes)
  | truncate
  | flushBuf
deriving DecidableEq, Repr

/-- The underlying I/O stream: contents, current position, `closed` status
and the trace of mutating operations issued so far. -/
structure IOStream where
  contents : Bytes
  pos : Nat
  closed : Bool
  trace : List StreamOp
deriving DecidableEq, Repr

/-- Number of bytes remaining between the current position and end of input. -/
def IOStream.remaining (s : IOStream) : Nat :=
  (s.contents.drop s.pos).length

/-- Python `stream.read(n)`: returns up to `n` bytes (all remaining bytes when
`n` is negative, as for Python file objects), advancing the position by the
number of bytes actually returned. -/
def IOStream.readBytes (s : IOStream) (n : Int) : Bytes × IOStream :=
  let avail := s.contents.drop s.pos
  let chunk := if n < 0 then avail else avail.take n.toNat
  (chunk, { s with pos := s.pos + chunk.length })

/-- Python `stream.seek(off)`. -/
def IOStream.seekTo (s : IOStream) (off : Nat) : IOStream :=
  { s with pos := off, trace := s.trace ++ [.seek off] }

/-- Python `stream.write(bs)`: overwrites in place at the current position,
extending the contents when writing past the end. -/
def IOStream.writeBytes (s : IOStream) (bs : Bytes) : IOStream :=
  { s with
      contents := s.contents.take s.pos ++ bs ++ s.contents.drop (s.pos + bs.length),
      pos := s.pos + bs.length,
      trace := s.trace ++ [.write bs] }

/-- Python `stream.truncate()`: cuts the contents at the current position. -/
def IOStream.truncateAt (s : IOStream) : IOStream :=
  { s with contents := s.contents.take s.pos, trace := s.trace ++ [.truncate] }

/-- Python `stream.flush()`: flushes stream-level buffering; only the trace
records it. -/
def IOStream.flushBuffer (s : IOStream) : IOStream :=
  { s with trace := s.trace ++ [.flushBuf] }

/-- Modelled from the spec: `constants.MAP_ID` (not under `src/`), the format
magic marker, the four bytes of the ASCII string "MAP ". -/
def MAP_ID : Bytes := [77, 65, 80, 32]

/-- Little-endian interpretation of a byte list as a natural number. -/
def natFromBytesLE (b : Bytes) : Nat :=
  b.foldr (fun x acc => x + 256 * acc) 0

/-- Two's-complement 32-bit integer read from four bytes under a byte order. -/
def int32FromBytes (bo : ByteOrder) (b : Bytes) : Int :=
  let le := match bo with | .little => b | .big => b.reverse
  let n := natFromBytesLE le
  if n < 2 ^ 31 then (n : Int) else (n : Int) - 2 ^ 32

/-- Modelled from the spec: the decoded header is the raw 1024 bytes of
`dtypes.HEADER_DTYPE` (not under `src/`) viewed under a byte-order tag, as the
spec's design notes describe (one raw buffer, field accessors consult the
tag). -/
structure MRCHeader where
  raw : Bytes
  byteOrder : ByteOrder
deriving DecidableEq, Repr

/-- Read the 32-bit integer field at a given byte offset of the header. -/
def MRCHeader.field32 (h : MRCHeader) (off : Nat) : Int :=
  int32FromBytes h.byteOrder ((h.raw.drop off).take 4)

/-- Modelled from the spec: header dimension field `nx` (offset 0 in the
standard MRC layout). -/
def MRCHeader.nx (h : MRCHeader) : Int := h.field32 0

/-- Modelled from the spec: header dimension field `ny` (offset 4). -/
def MRCHeader.ny (h : MRCHeader) : Int := h.field32 4

/-- Modelled from the spec: header dimension field `nz` (offset 8). -/
def MRCHeader.nz (h : MRCHeader) : Int := h.field32 8

/-- Modelled from the spec: header `mode` field selecting the element numeric
type (offset 12). -/
def MRCHeader.mode (h : MRCHeader) : Int := h.field32 12

/-- Modelled from the spec: header `nsymbt` field, the byte length of the
extended header (offset 92). -/
def MRCHeader.nsymbt (h : MRCHeader) : Int := h.field32 92

/-- Modelled from the spec: the magic/map-identifier field of the raw header
bytes (a 4-byte string field at offset 208, byte-order independent). -/
def headerMapField (raw : Bytes) : Bytes := (raw.drop 208).take 4

/-- Modelled from the spec: the machine-stamp field of the raw header bytes
(4 bytes at offset 212, byte-order independent). -/
def headerMachst (raw : Bytes) : Bytes := (raw.drop 212).take 4

/-- Modelled from the spec: `utils.byte_order_from_machine_stamp` (not under
`src/`) — a lookup table of recognized stamp patterns; `0x44 0x44` and
`0x44 0x41` mean little-endian, `0x11 0x11` means big-endian, anything else is
unrecognized (`none`, the `ValueError` case). -/
def byte_order_from_machine_stamp (machst : Bytes) : Option ByteOrder :=
  match machst with
  | 0x44 :: 0x44 :: _ => some .little
  | 0x44 :: 0x41 :: _ => some .little
  | 0x11 :: 0x11 :: _ => some .big
  | _ => none

/-- Hard failures raised by the interpreter (Python `ValueError` cases, plus
the write failure when flushing absent data).  `truncatedData` carries the
expected and actually-read byte counts, as the source's message does. -/
inductive MrcError
  | truncatedHeader
  | formatMismatch
  | unknownByteOrder
  | invalidMode
  | truncatedData (expected : Int) (actual : Nat)
  | absentDataWrite
  | headerAbsentWrite
deriving DecidableEq, Repr

/-- Warnings emitted in permissive mode (Python `warnings.warn` calls). -/
inductive MrcWarning
  | formatMismatch
  | unknownByteOrder
  | invalidMode
  | truncatedData (expected : Int) (actual : Nat)
deriving DecidableEq, Repr

/-- Embedding of `MrcInterpreter._read_header`: read 1024 bytes (fail
unconditionally if fewer arrive), check the magic marker (error in strict
mode, warning in permissive mode), derive the byte order from the machine
stamp (error in strict mode; little-endian fallback plus warning in
permissive mode), and return the header as the raw bytes tagged with the
derived byte order. -/
def read_header (permissive : Bool) (s : IOStream) :
    Except MrcError (MRCHeader × IOStream × List MrcWarning) :=
  let r := s.readBytes 1024
  let raw := r.1
  let s1 := r.2
  if raw.length < 1024 then .error .truncatedHeader
  else if headerMapField raw ≠ MAP_ID ∧ permissive = false then
    .error .formatMismatch
  else
    let w1 : List MrcWarning :=
      if headerMapField raw = MAP_ID then [] else [.formatMismatch]
    match byte_order_from_machine_stamp (headerMachst raw) with
    | some bo => .ok (⟨raw, bo⟩, s1, w1)
    | none =>
      if permissive then .ok (⟨raw, .little⟩, s1, w1 ++ [.unknownByteOrder])
      else .error .unknownByteOrder

/-- Embedding of `MrcInterpreter._read_extended_header`: read exactly
`nsymbt` bytes from the stream (fewer only at end of input), with no length
validation, no error and no warning in either mode. -/
def read_extended_header (h : MRCHeader) (s : IOStream) : Bytes × IOStream :=
  s.readBytes h.nsymbt

/-- Modelled from the spec: `utils.data_dtype_from_header` (not under
`src/`) — the fixed mode→type mapping; the result is the element size in
bytes (mode 0: int8, 1: int16, 2: float32, 4: complex64, 6: uint16), `none`
for an unrecognized mode (the `ValueError` case). -/
def data_dtype_from_header (h : MRCHeader) : Option Nat :=
  let m := h.mode
  if m = 0 then some 1
  else if m = 1 then some 2
  else if m = 2 then some 4
  else if m = 4 then some 8
  else if m = 6 then some 2
  else none

/-- Modelled from the spec: `utils.data_shape_from_header` (not under
`src/`) — the shape derived from the header dimension fields, in the format's
fixed order `(nz, ny, nx)`. -/
def data_shape_from_header (h : MRCHeader) : List Int :=
  [h.nz, h.ny, h.nx]

/-- The data block: the raw byte span together with the derived element size
and shape (the source reinterprets the bytes without copying). -/
structure DataBlock where
  bytes : Bytes
  itemsize : Nat
  shape : List Int
deriving DecidableEq, Repr

/-- Required data byte length: `nbytes = dtype.itemsize` multiplied by every
axis length, exactly as the source's loop computes it. -/
def dataNbytes (itemsize : Nat) (shape : List Int) : Int :=
  shape.foldl (fun a x => a * x) (itemsize : Int)

/-- Embedding of `MrcInterpreter._read_data`: derive the dtype (on an
unrecognized mode: strict error, or permissive warning plus absent data,
returning before any stream read), derive the shape and byte count, read that
many bytes, and on a short read: strict error carrying expected and actual
counts, or permissive warning plus absent data. -/
def read_data (permissive : Bool) (h : MRCHeader) (s : IOStream) :
    Except MrcError (Option DataBlock × IOStream × List MrcWarning) :=
  match data_dtype_from_header h with
  | none =>
    if permissive then .ok (none, s, [.invalidMode]) else .error .invalidMode
  | some itemsize =>
    let shape := data_shape_from_header h
    let nbytes := dataNbytes itemsize shape
    let r := s.readBytes nbytes
    let dataBytes := r.1
    let s1 := r.2
    if (dataBytes.length : Int) < nbytes then
      if permissive then .ok (none, s1, [.truncatedData nbytes dataBytes.length])
      else .error (.truncatedData nbytes dataBytes.length)
    else .ok (some ⟨dataBytes, itemsize, shape⟩, s1, [])

/-- In-memory state of an `MrcInterpreter` instance: the three regions (each
`none` before open, after close, or — for data — after a permissive degraded
open), plus the read-only and permissive flags. -/
structure MrcState where
  header : Option MRCHeader
  extended_header : Option Bytes
  data : Option DataBlock
  read_only : Bool
  permissive : Bool
deriving DecidableEq, Repr

/-- Embedding of `MrcInterpreter._read`: header, extended header and data in
order, collecting permissive-mode warnings; any hard failure propagates. -/
def mrcRead (permissive read_only : Bool) (s : IOStream) :
    Except MrcError (MrcState × IOStream × List MrcWarning) :=
  match read_header permissive s with
  | .error e => .error e
  | .ok (h, s1, w1) =>
    let r := read_extended_header h s1
    match read_data permissive h r.2 with
    | .error e => .error e
    | .ok (d, s3, w3) =>
      .ok ({ header := some h, extended_header := some r.1, data := d,
             read_only := read_only, permissive := permissive }, s3, w1 ++ w3)

/-- Embedding of `MrcInterpreter.flush`: a complete no-op on the stream when
read-only; otherwise seek to 0, write the header bytes, write the extended
header bytes, write the data bytes (the source first coerces them to a
contiguous layout with `np.ascontiguousarray`; the model already holds the
contiguous byte span), truncate, then flush stream buffering.  Writing with
the header released fails (Python writes `None`), and writing with the data
region absent fails after the header and extended header writes
(`np.ascontiguousarray(None)` yields an object array no stream can write). -/
def flush (st : MrcState) (s : IOStream) : Except MrcError (MrcState × IOStream) :=
  if st.read_only then .ok (st, s)
  else
    match st.header with
    | none => .error .headerAbsentWrite
    | some h =>
      let s1 := (s.seekTo 0).writeBytes h.raw
      let s2 := s1.writeBytes (st.extended_header.getD [])
      match st.data with
      | none => .error .absentDataWrite
      | some d => .ok (st, ((s2.writeBytes d.bytes).truncateAt).flushBuffer)

/-- Release of the three in-memory regions performed at the end of
`MrcInterpreter.close` (the data release via `MrcObject._close_data`,
modelled from the spec as setting the region absent). -/
def clearState (st : MrcState) : MrcState :=
  { st with header := none, extended_header := none, data := none }

/-- Embedding of `MrcInterpreter.close`: flush first when the header is
non-null and the stream is not already closed (a flush failure propagates
before anything is released), then release header, extended header and
data. -/
def close (st : MrcState) (s : IOStream) : Except MrcError (MrcState × IOStream) :=
  if st.header.isSome ∧ s.closed = false then
    match flush st s with
    | .error e => .error e
    | .ok (st1, s1) => .ok (clearState st1, s1)
  else .ok (clearState st, s)

/-- A lifecycle operation invoked by a caller: `flush()` or `close()`. -/
inductive LifeOp
  | doFlush
  | doClose
deriving DecidableEq, Repr

/-- Run a sequence of `flush()` / `close()` calls, stopping at the first hard
failure. -/
def runOps : List LifeOp → MrcState → IOStream → Except MrcError (MrcState × IOStream)
  | [], st, s => .ok (st, s)
  | .doFlush :: rest, st, s =>
    match flush st s with
    | .error e => .error e
    | .ok (st1, s1) => runOps rest st1 s1
  | .doClose :: rest, st, s =>
    match close st s with
    | .error e => .error e
    | .ok (st1, s1) => runOps rest st1 s1

/-- Concrete 1024-byte header used by witnesses: dimensions 1×1×1, mode 2
(float32), nsymbt 4, valid magic marker, little-endian machine stamp. -/
def sampleHeaderBytes : Bytes :=
  [1,0,0,0, 1,0,0,0, 1,0,0,0, 2,0,0,0] ++ List.replicate 76 0 ++ [4,0,0,0]
    ++ List.replicate 112 0 ++ MAP_ID ++ [68,68,0,0] ++ List.replicate 808 0

/-- The decoded form of `sampleHeaderBytes`. -/
def sampleHeader : MRCHeader := ⟨sampleHeaderBytes, .little⟩

/-- Concrete 1024-byte header used by witnesses: like `sampleHeaderBytes` but
with the unrecognized mode 3 and nsymbt 0. -/
def badModeHeaderBytes : Bytes :=
  [1,0,0,0, 1,0,0,0, 1,0,0,0, 3,0,0,0] ++ List.replicate 76 0 ++ [0,0,0,0]
    ++ List.replicate 112 0 ++ MAP_ID ++ [68,68,0,0] ++ List.replicate 808 0

/-- The decoded form of `badModeHeaderBytes`. -/
def badModeHeader : MRCHeader := ⟨badModeHeaderBytes, .little⟩

theorem IOStream.readBytes_split (s : IOStream) (n : Int) (want rest : Bytes)
    (hsplit : s.contents.drop s.pos = want ++ rest)
    (hlen : (want.length : Int) = n) :
    s.readBytes n = (want, { s with pos := s.pos + want.length }) := by
  have hn0 : ¬ n < 0 := by omega
  have hnt : n.toNat = want.length := by omega
  simp only [IOStream.readBytes, hsplit, if_neg hn0, hnt, List.take_left]

/-- C2: a stream yielding fewer than 1024 bytes for the header makes both
`_read_header` and the full open fail with the truncated-header error, for
either value of the permissive flag (the failure is never downgraded to a
warning). -/
theorem open_short_header_truncated (p ro : Bool) (s : IOStream)
    (hshort : s.remaining < 1024) :
    read_header p s = .error .truncatedHeader ∧
    mrcRead p ro s = .error .truncatedHeader := by
  have hchunk : ((s.contents.drop s.pos).take (1024 : Int).toNat).length < 1024 := by
    rw [List.length_take]
    exact lt_of_le_of_lt (min_le_right _ _) hshort
  have h1 : read_header p s = .error .truncatedHeader := by
    simp only [read_header, IOStream.readBytes, if_neg (by decide : ¬ (1024 : Int) < 0)]
    rw [if_pos hchunk]
  exact ⟨h1, by simp [mrcRead, h1]⟩

theorem open_short_header_truncated_witness :
    IOStream.remaining ⟨[1, 2, 3], 0, false, []⟩ < 1024 ∧
    read_header true ⟨[1, 2, 3], 0, false, []⟩ = .error .truncatedHeader ∧
    read_header false ⟨[1, 2, 3], 0, false, []⟩ = .error .truncatedHeader ∧
    mrcRead true false ⟨[1, 2, 3], 0, false, []⟩ = .error .truncatedHeader := by
  have hshort : IOStream.remaining ⟨[1, 2, 3], 0, false, []⟩ < 1024 := by decide
  exact ⟨hshort, (open_short_header_truncated true false _ hshort).1,
    (open_short_header_truncated false false _ hshort).1,
    (open_short_header_truncated true false _ hshort).2⟩

/-- C9: `_read_extended_header` reads exactly the `nsymbt` bytes declared by
the header (the empty region when `nsymbt = 0`), with no length validation:
at end of input the result is silently shorter (`min nsymbt remaining`
bytes), and the function is total — no error and no warning in either strict
or permissive mode, which do not even reach it — and issues no mutating
stream operation. -/
theorem extended_header_exact_read (h : MRCHeader) (s : IOStream)
    (hns : 0 ≤ h.nsymbt) :
    (read_extended_header h s).1 = (s.contents.drop s.pos).take h.nsymbt.toNat ∧
    (read_extended_header h s).1.length = min h.nsymbt.toNat s.remaining ∧
    (h.nsymbt = 0 → (read_extended_header h s).1 = []) ∧
    (read_extended_header h s).2.contents = s.contents ∧
    (read_extended_header h s).2.trace = s.trace := by
  have hn0 : ¬ h.nsymbt < 0 := by omega
  refine ⟨?_, ?_, fun h0 => ?_, ?_, ?_⟩
  · simp [read_extended_header, IOStream.readBytes, if_neg hn0]
  · simp [read_extended_header, IOStream.readBytes, if_neg hn0,
      IOStream.remaining, List.length_take]
  · simp [read_extended_header, IOStream.readBytes, h0]
  · simp [read_extended_header, IOStream.readBytes]
  · simp [read_extended_header, IOStream.readBytes]

theorem extended_header_exact_read_witness :
    0 ≤ sampleHeader.nsymbt ∧
    (read_extended_header sampleHeader ⟨[5, 6], 0, false, []⟩).1 = [5, 6] := by
  have hns : 0 ≤ sampleHeader.nsymbt := by decide
  have h := extended_header_exact_read sampleHeader ⟨[5, 6], 0, false, []⟩ hns
  exact ⟨hns, h.1.trans (by decide)⟩

theorem flush_readonly (st : MrcState) (s : IOStream) (hro : st.read_only = true) :
    flush st s = .ok (st, s) := by
  simp [flush, hro]

theorem close_readonly (st : MrcState) (s : IOStream) (hro : st.read_only = true) :
    close st s = .ok (clearState st, s) := by
  by_cases hc : st.header.isSome ∧ s.closed = false
  · simp [close, hc, flush_readonly st s hro]
  · simp [close, hc]

/-- C6: a read-only instance never issues a write, seek or truncate call to
the underlying stream: any sequence of `flush()` / `close()` calls succeeds
and returns the stream exactly as it was (contents, position, and trace of
mutating operations all unchanged). -/
theorem readonly_issues_no_stream_ops (ops : List LifeOp) (st : MrcState)
    (s : IOStream) (hro : st.read_only = true) :
    ∃ stf, runOps ops st s = .ok (stf, s) := by
  induction ops generalizing st with
  | nil => exact ⟨st, rfl⟩
  | cons op rest ih =>
    cases op with
    | doFlush =>
      obtain ⟨stf, hst⟩ := ih st hro
      exact ⟨stf, by simp [runOps, flush_readonly st s hro, hst]⟩
    | doClose =>
      obtain ⟨stf, hst⟩ := ih (clearState st) (by simpa [clearState] using hro)
      exact ⟨stf, by simp [runOps, close_readonly st s hro, hst]⟩

theorem readonly_issues_no_stream_ops_witness :
    (MrcState.mk (some sampleHeader) (some []) none true false).read_only = true ∧
    ∃ stf, runOps [.doFlush, .doClose, .doFlush]
      (MrcState.mk (some sampleHeader) (some []) none true false)
      ⟨[1, 2, 3], 0, false, []⟩ = .ok (stf, ⟨[1, 2, 3], 0, false, []⟩) :=
  ⟨rfl, readonly_issues_no_stream_ops [.doFlush, .doClose, .doFlush] _ _ rfl⟩

/-- C8: `close()` is idempotent: when a first `close()` succeeds, a second
`close()` on the resulting state and stream raises no error, performs no
second flush or write (the stream is returned exactly as it was, trace
included), and leaves the state unchanged — the first close released the
header, and the flush-on-close is guarded on the header being non-null. -/
theorem close_idempotent (st st1 : MrcState) (s s1 : IOStream)
    (h : close st s = .ok (st1, s1)) :
    st1.header = none ∧ close st1 s1 = .ok (st1, s1) := by
  have hnone : st1.header = none := by
    unfold close at h
    split at h
    · cases hflush : flush st s with
      | error e => rw [hflush] at h; exact absurd h (by simp)
      | ok p =>
        rw [hflush] at h
        simp only [Except.ok.injEq, Prod.mk.injEq] at h
        rw [← h.1]
        rfl
    · simp only [Except.ok.injEq, Prod.mk.injEq] at h
      rw [← h.1]
      rfl
  have hclear : clearState st1 = st1 := by
    unfold close at h
    split at h
    · cases hflush : flush st s with
      | error e => rw [hflush] at h; exact absurd h (by simp)
      | ok p =>
        rw [hflush] at h
        simp only [Except.ok.injEq, Prod.mk.injEq] at h
        rw [← h.1]
        rfl
    · simp only [Except.ok.injEq, Prod.mk.injEq] at h
      rw [← h.1]
      rfl
  refine ⟨hnone, ?_⟩
  have hcond : ¬ (st1.header.isSome ∧ s1.closed = false) := by
    simp [hnone]
  simp [close, hcond, hclear]

theorem close_idempotent_witness :
    close ⟨none, none, none, false, false⟩ ⟨[], 0, false, []⟩ =
      .ok (⟨none, none, none, false, false⟩, ⟨[], 0, false, []⟩) ∧
    (MrcState.mk none none none false false).header = none :=
  ⟨(close_idempotent ⟨none, none, none, false, false⟩ ⟨none, none, none, false, false⟩
      ⟨[], 0, false, []⟩ ⟨[], 0, false, []⟩ rfl).2,
   (close_idempotent ⟨none, none, none, false, false⟩ ⟨none, none, none, false, false⟩
      ⟨[], 0, false, []⟩ ⟨[], 0, false, []⟩ rfl).1⟩

/-- C10: on a writable instance whose data region is absent (as after a
permissive degraded open) but whose header is present, `flush()` fails with
an error instead of completing a write, and `close()` on a not-yet-closed
stream propagates the same failure — the spec's flush precondition (header
non-null) is not sufficient, since flush unconditionally writes the data
region. -/
theorem flush_absent_data_fails (st : MrcState) (s : IOStream) (h : MRCHeader)
    (hro : st.read_only = false) (hh : st.header = some h) (hd : st.data = none) :
    flush st s = .error .absentDataWrite ∧
    (s.closed = false → close st s = .error .absentDataWrite) := by
  have hf : flush st s = .error .absentDataWrite := by
    simp [flush, hro, hh, hd]
  refine ⟨hf, fun hcl => ?_⟩
  have hcond : st.header.isSome ∧ s.closed = false := ⟨by simp [hh], hcl⟩
  simp [close, hcond, hf]

theorem flush_absent_data_fails_witness :
    flush ⟨some sampleHeader, some [], none, false, true⟩ ⟨[], 0, false, []⟩ =
      .error .absentDataWrite ∧
    close ⟨some sampleHeader, some [], none, false, true⟩ ⟨[], 0, false, []⟩ =
      .error .absentDataWrite :=
  ⟨(flush_absent_data_fails _ _ sampleHeader rfl rfl rfl).1,
   (flush_absent_data_fails _ _ sampleHeader rfl rfl rfl).2 rfl⟩

theorem flush_writable (st : MrcState) (s : IOStream) (h : MRCHeader)
    (e : Bytes) (d : DataBlock)
    (hro : st.read_only = false) (hh : st.header = some h)
    (he : st.extended_header = some e) (hd : st.data = some d) :
    flush st s = .ok (st,
      { contents := h.raw ++ e ++ d.bytes,
        pos := (h.raw ++ e ++ d.bytes).length,
        closed := s.closed,
        trace := s.trace ++ [.seek 0, .write h.raw, .write e, .write d.bytes,
          .truncate, .flushBuf] }) := by
  simp [flush, hro, hh, he, hd, IOStream.seekTo, IOStream.writeBytes,
    IOStream.truncateAt, IOStream.flushBuffer, List.take_append,
    List.drop_append, List.take_left, Nat.add_assoc, List.length_append,
    List.append_assoc]

/-- C7: on a writable instance in the Open state (header, extended header and
data all present), `flush()` performs exactly the sequence seek-to-0, write
encoded header, write extended-header bytes, write data bytes, truncate at
the resulting position, flush stream buffering — recorded verbatim in the
operation trace — and the resulting stream contents are exactly the three
regions, so trailing bytes beyond the data block are removed. -/
theorem flush_writes_exact_sequence (st : MrcState) (s : IOStream)
    (h : MRCHeader) (e : Bytes) (d : DataBlock)
    (hro : st.read_only = false) (hh : st.header = some h)
    (he : st.extended_header = some e) (hd : st.data = some d) :
    flush st s = .ok (st,
      { contents := h.raw ++ e ++ d.bytes,
        pos := (h.raw ++ e ++ d.bytes).length,
        closed := s.closed,
        trace := s.trace ++ [.seek 0, .write h.raw, .write e, .write d.bytes,
          .truncate, .flushBuf] }) :=
  flush_writable st s h e d hro hh he hd

theorem flush_writes_exact_sequence_witness :
    flush ⟨some sampleHeader, some [9, 9, 9, 9], some ⟨[0, 0, 192, 63], 4, [1, 1, 1]⟩,
        false, false⟩
      ⟨List.replicate 2000 7, 0, false, []⟩ =
    .ok (⟨some sampleHeader, some [9, 9, 9, 9], some ⟨[0, 0, 192, 63], 4, [1, 1, 1]⟩,
        false, false⟩,
      { contents := sampleHeader.raw ++ [9, 9, 9, 9] ++ [0, 0, 192, 63],
        pos := (sampleHeader.raw ++ [9, 9, 9, 9] ++ [0, 0, 192, 63]).length,
        closed := false,
        trace := [] ++ [.seek 0, .write sampleHeader.raw, .write [9, 9, 9, 9],
          .write [0, 0, 192, 63], .truncate, .flushBuf] }) :=
  flush_writes_exact_sequence _ _ sampleHeader [9, 9, 9, 9] ⟨[0, 0, 192, 63], 4, [1, 1, 1]⟩
    rfl rfl rfl rfl

/-- C3: the magic-marker check and the machine-stamp byte-order check of
`_read_header` are independent.  On a full 1024-byte read: a failed magic
check raises the format-mismatch error in strict mode; with the magic intact
an unrecognized machine stamp raises the unknown-byte-order error in strict
mode; in permissive mode a recognized stamp opens with the derived byte order
and a format-mismatch warning exactly when the magic fails, and an
unrecognized stamp opens with the little-endian fallback plus its own
warning, independently of the magic outcome — a file can fail one, both, or
neither check and still open in permissive mode. -/
theorem header_checks_independent (s : IOStream) (raw : Bytes)
    (hraw : (s.readBytes 1024).1 = raw) (hlen : raw.length = 1024) :
    (headerMapField raw ≠ MAP_ID → read_header false s = .error .formatMismatch) ∧
    (headerMapField raw = MAP_ID →
      byte_order_from_machine_stamp (headerMachst raw) = none →
      read_header false s = .error .unknownByteOrder) ∧
    (∀ bo, byte_order_from_machine_stamp (headerMachst raw) = some bo →
      read_header true s = .ok (⟨raw, bo⟩, (s.readBytes 1024).2,
        if headerMapField raw = MAP_ID then [] else [.formatMismatch])) ∧
    (byte_order_from_machine_stamp (headerMachst raw) = none →
      read_header true s = .ok (⟨raw, .little⟩, (s.readBytes 1024).2,
        (if headerMapField raw = MAP_ID then [] else [.formatMismatch])
          ++ [.unknownByteOrder])) := by
  have hnotlt : ¬ raw.length < 1024 := by omega
  refine ⟨fun hmag => ?_, fun hmag hbo => ?_, fun bo hbo => ?_, fun hbo => ?_⟩
  · simp [read_header, hraw, hnotlt, hmag]
  · simp [read_header, hraw, hnotlt, hmag, hbo]
  · simp [read_header, hraw, hnotlt, hbo]
  · simp [read_header, hraw, hnotlt, hbo]

set_option maxRecDepth 10000 in
theorem header_checks_independent_witness :
    read_header false ⟨List.replicate 1024 0, 0, false, []⟩ =
      .error .formatMismatch ∧
    read_header true ⟨List.replicate 1024 0, 0, false, []⟩ =
      .ok (⟨List.replicate 1024 0, .little⟩,
        ⟨List.replicate 1024 0, 1024, false, []⟩,
        [.formatMismatch, .unknownByteOrder]) := by
  have h := header_checks_independent ⟨List.replicate 1024 0, 0, false, []⟩
    (List.replicate 1024 0) rfl (by decide)
  refine ⟨h.1 (by decide), ?_⟩
  rw [h.2.2.2 (by decide)]
  rfl

/-- C4: a header whose mode maps to no known element type makes `_read_data`
fail with the invalid-mode error in strict mode; in permissive mode it warns,
sets the data region absent and returns early, consuming no stream bytes
(the stream is returned untouched), and a full permissive open with such a
header still keeps the decoded header and extended header intact. -/
theorem invalid_mode_strict_fails_permissive_absent (h : MRCHeader)
    (hmode : data_dtype_from_header h = none) :
    (∀ s, read_data false h s = .error .invalidMode) ∧
    (∀ s, read_data true h s = .ok (none, s, [.invalidMode])) ∧
    (∀ ro s s1 w1, read_header true s = .ok (h, s1, w1) →
      mrcRead true ro s = .ok
        ({ header := some h, extended_header := some (read_extended_header h s1).1,
           data := none, read_only := ro, permissive := true },
         (read_extended_header h s1).2, w1 ++ [.invalidMode])) := by
  refine ⟨fun s => by simp [read_data, hmode], fun s => by simp [read_data, hmode],
    fun ro s s1 w1 hrh => ?_⟩
  simp [mrcRead, hrh, read_data, hmode]

set_option maxRecDepth 10000 in
theorem invalid_mode_witness :
    data_dtype_from_header badModeHeader = none ∧
    read_data false badModeHeader ⟨[], 0, false, []⟩ = .error .invalidMode ∧
    read_data true badModeHeader ⟨[], 0, false, []⟩ =
      .ok (none, ⟨[], 0, false, []⟩, [.invalidMode]) ∧
    mrcRead true false ⟨badModeHeaderBytes, 0, false, []⟩ = .ok
      ({ header := some badModeHeader, extended_header := some [],
         data := none, read_only := false, permissive := true },
       ⟨badModeHeaderBytes, 1024, false, []⟩, [.invalidMode]) := by
  have h := invalid_mode_strict_fails_permissive_absent badModeHeader rfl
  refine ⟨rfl, h.1 _, h.2.1 _, ?_⟩
  rw [h.2.2 false ⟨badModeHeaderBytes, 0, false, []⟩
    ⟨badModeHeaderBytes, 1024, false, []⟩ [] (by rfl)]
  rfl

/-- C5: when the stream holds fewer bytes than the data byte length required
by the header (derived element size times the product of the derived shape),
strict mode fails with a truncated-data error carrying both the expected and
the actually-read byte counts, while permissive mode warns (with the same
two counts) and sets the data region absent, the stream having been advanced
to end of input. -/
theorem short_data_strict_fails_permissive_absent (h : MRCHeader) (isz : Nat)
    (s : IOStream) (hdt : data_dtype_from_header h = some isz)
    (hshort : (s.remaining : Int) < dataNbytes isz (data_shape_from_header h)) :
    read_data false h s = .error
      (.truncatedData (dataNbytes isz (data_shape_from_header h)) s.remaining) ∧
    read_data true h s = .ok (none, { s with pos := s.pos + s.remaining },
      [.truncatedData (dataNbytes isz (data_shape_from_header h)) s.remaining]) := by
  have havail : (s.contents.drop s.pos).length = s.remaining := rfl
  have h0 : ¬ dataNbytes isz (data_shape_from_header h) < 0 := by
    have hge : (0 : Int) ≤ (s.remaining : Int) := Int.ofNat_nonneg _
    omega
  have htake : (s.contents.drop s.pos).take
      (dataNbytes isz (data_shape_from_header h)).toNat = s.contents.drop s.pos := by
    apply List.take_of_length_le
    rw [havail]
    omega
  have hread : s.readBytes (dataNbytes isz (data_shape_from_header h)) =
      (s.contents.drop s.pos, { s with pos := s.pos + s.remaining }) := by
    simp only [IOStream.readBytes, if_neg h0, htake, havail]
  have hcond : ((s.contents.drop s.pos).length : Int) <
      dataNbytes isz (data_shape_from_header h) := by
    rw [havail]; exact hshort
  constructor
  · simp only [read_data, hdt, hread, havail]
    rw [if_pos hshort]
    simp
  · simp only [read_data, hdt, hread, havail]
    rw [if_pos hshort]
    simp

theorem short_data_witness :
    data_dtype_from_header sampleHeader = some 4 ∧
    ((IOStream.mk [1, 2, 3] 0 false []).remaining : Int) <
      dataNbytes 4 (data_shape_from_header sampleHeader) ∧
    read_data false sampleHeader ⟨[1, 2, 3], 0, false, []⟩ =
      .error (.truncatedData 4 3) ∧
    read_data true sampleHeader ⟨[1, 2, 3], 0, false, []⟩ =
      .ok (none, ⟨[1, 2, 3], 3, false, []⟩, [.truncatedData 4 3]) := by
  have hdt : data_dtype_from_header sampleHeader = some 4 := by decide
  have hshort : ((IOStream.mk [1, 2, 3] 0 false []).remaining : Int) <
      dataNbytes 4 (data_shape_from_header sampleHeader) := by decide
  have h := short_data_strict_fails_permissive_absent sampleHeader 4
    ⟨[1, 2, 3], 0, false, []⟩ hdt hshort
  refine ⟨hdt, hshort, ?_, ?_⟩
  · rw [h.1]; rfl
  · rw [h.2]; rfl

/-- C1: for a valid header/extended-header/data triple laid out as header
(1024 bytes, valid magic, recognized machine stamp of either byte order),
extended header of exactly the declared `nsymbt` bytes, and data of exactly
the derived byte length, opening the stream consumes exactly the whole input
with no warning, and flushing the resulting instance back writes header,
extended header and data in order and truncates, reproducing the original
bytes exactly. -/
theorem open_flush_roundtrip (p : Bool) (hdr ext dat : Bytes) (bo : ByteOrder)
    (isz : Nat)
    (hL : hdr.length = 1024)
    (hmap : headerMapField hdr = MAP_ID)
    (hbo : byte_order_from_machine_stamp (headerMachst hdr) = some bo)
    (hns : (MRCHeader.mk hdr bo).nsymbt = (ext.length : Int))
    (hisz : data_dtype_from_header ⟨hdr, bo⟩ = some isz)
    (hnb : dataNbytes isz (data_shape_from_header ⟨hdr, bo⟩) = (dat.length : Int)) :
    mrcRead p false ⟨hdr ++ ext ++ dat, 0, false, []⟩ = .ok
      ({ header := some ⟨hdr, bo⟩, extended_header := some ext,
         data := some ⟨dat, isz, data_shape_from_header ⟨hdr, bo⟩⟩,
         read_only := false, permissive := p },
       ⟨hdr ++ ext ++ dat, (hdr ++ ext ++ dat).length, false, []⟩, []) ∧
    flush
      { header := some ⟨hdr, bo⟩, extended_header := some ext,
        data := some ⟨dat, isz, data_shape_from_header ⟨hdr, bo⟩⟩,
        read_only := false, permissive := p }
      ⟨hdr ++ ext ++ dat, (hdr ++ ext ++ dat).length, false, []⟩ = .ok
      ({ header := some ⟨hdr, bo⟩, extended_header := some ext,
         data := some ⟨dat, isz, data_shape_from_header ⟨hdr, bo⟩⟩,
         read_only := false, permissive := p },
       ⟨hdr ++ ext ++ dat, (hdr ++ ext ++ dat).length, false,
        [.seek 0, .write hdr, .write ext, .write dat, .truncate, .flushBuf]⟩) := by
  have h1 : IOStream.readBytes ⟨hdr ++ ext ++ dat, 0, false, []⟩ 1024 =
      (hdr, ⟨hdr ++ ext ++ dat, 0 + hdr.length, false, []⟩) := by
    refine IOStream.readBytes_split _ 1024 hdr (ext ++ dat) ?_ ?_
    · show (hdr ++ ext ++ dat).drop 0 = hdr ++ (ext ++ dat)
      simp [List.append_assoc]
    · rw [hL]; rfl
  have hlt : ¬ hdr.length < 1024 := by omega
  have hrh : read_header p ⟨hdr ++ ext ++ dat, 0, false, []⟩ =
      .ok (⟨hdr, bo⟩, ⟨hdr ++ ext ++ dat, hdr.length, false, []⟩, []) := by
    unfold read_header
    rw [h1]
    simp [hmap, hbo, hlt]
  have h2 : IOStream.readBytes ⟨hdr ++ ext ++ dat, hdr.length, false, []⟩
      ((MRCHeader.mk hdr bo).nsymbt) =
      (ext, ⟨hdr ++ ext ++ dat, hdr.length + ext.length, false, []⟩) := by
    refine IOStream.readBytes_split _ _ ext dat ?_ ?_
    · show (hdr ++ ext ++ dat).drop hdr.length = ext ++ dat
      rw [List.append_assoc]
      exact List.drop_left hdr (ext ++ dat)
    · rw [hns]
  have hext : read_extended_header ⟨hdr, bo⟩
      ⟨hdr ++ ext ++ dat, hdr.length, false, []⟩ =
      (ext, ⟨hdr ++ ext ++ dat, hdr.length + ext.length, false, []⟩) := by
    simpa [read_extended_header] using h2
  have h3 : IOStream.readBytes ⟨hdr ++ ext ++ dat, hdr.length + ext.length, false, []⟩
      (dataNbytes isz (data_shape_from_header ⟨hdr, bo⟩)) =
      (dat, ⟨hdr ++ ext ++ dat, hdr.length + ext.length + dat.length, false, []⟩) := by
    refine IOStream.readBytes_split _ _ dat [] ?_ ?_
    · show (hdr ++ ext ++ dat).drop (hdr.length + ext.length) = dat ++ []
      rw [List.append_nil, List.append_assoc, List.drop_append, List.drop_left]
    · rw [hnb]
  have hnotlt : ¬ ((dat.length : Int) <
      dataNbytes isz (data_shape_from_header ⟨hdr, bo⟩)) := by
    rw [hnb]
    omega
  have hrd : read_data p ⟨hdr, bo⟩
      ⟨hdr ++ ext ++ dat, hdr.length + ext.length, false, []⟩ =
      .ok (some ⟨dat, isz, data_shape_from_header ⟨hdr, bo⟩⟩,
        ⟨hdr ++ ext ++ dat, hdr.length + ext.length + dat.length, false, []⟩, []) := by
    unfold read_data
    rw [hisz]
    simp only [h3]
    rw [if_neg hnotlt]
  constructor
  · simp only [mrcRead, hrh, hext, hrd]
    simp [List.length_append, Nat.add_assoc]
  · have hfl := flush_writable
      { header := some ⟨hdr, bo⟩, extended_header := some ext,
        data := some ⟨dat, isz, data_shape_from_header ⟨hdr, bo⟩⟩,
        read_only := false, permissive := p }
      ⟨hdr ++ ext ++ dat, (hdr ++ ext ++ dat).length, false, []⟩
      ⟨hdr, bo⟩ ext ⟨dat, isz, data_shape_from_header ⟨hdr, bo⟩⟩ rfl rfl rfl rfl
    simpa using hfl

set_option maxRecDepth 40000 in
theorem open_flush_roundtrip_witness :
    mrcRead false false
      ⟨sampleHeaderBytes ++ [9, 9, 9, 9] ++ [0, 0, 192, 63], 0, false, []⟩ = .ok
      ({ header := some ⟨sampleHeaderBytes, .little⟩,
         extended_header := some [9, 9, 9, 9],
         data := some ⟨[0, 0, 192, 63], 4,
           data_shape_from_header ⟨sampleHeaderBytes, .little⟩⟩,
         read_only := false, permissive := false },
       ⟨sampleHeaderBytes ++ [9, 9, 9, 9] ++ [0, 0, 192, 63],
        (sampleHeaderBytes ++ [9, 9, 9, 9] ++ [0, 0, 192, 63]).length, false, []⟩, []) ∧
    flush
      { header := some ⟨sampleHeaderBytes, .little⟩,
        extended_header := some [9, 9, 9, 9],
        data := some ⟨[0, 0, 192, 63], 4,
          data_shape_from_header ⟨sampleHeaderBytes, .little⟩⟩,
        read_only := false, permissive := false }
      ⟨sampleHeaderBytes ++ [9, 9, 9, 9] ++ [0, 0, 192, 63],
       (sampleHeaderBytes ++ [9, 9, 9, 9] ++ [0, 0, 192, 63]).length, false, []⟩ = .ok
      ({ header := some ⟨sampleHeaderBytes, .little⟩,
         extended_header := some [9, 9, 9, 9],
         data := some ⟨[0, 0, 192, 63], 4,
           data_shape_from_header ⟨sampleHeaderBytes, .little⟩⟩,
         read_only := false, permissive := false },
       ⟨sampleHeaderBytes ++ [9, 9, 9, 9] ++ [0, 0, 192, 63],
        (sampleHeaderBytes ++ [9, 9, 9, 9] ++ [0, 0, 192, 63]).length, false,
        [.seek 0, .write sampleHeaderBytes, .write [9, 9, 9, 9],
         .write [0, 0, 192, 63], .truncate, .flushBuf]⟩) :=
  open_flush_roundtrip false sampleHeaderBytes [9, 9, 9, 9] [0, 0, 192, 63] .little 4
    (by decide) (by decide) (by decide) (by decide) (by decide) (by decide)
